import Mathlib

/-!
# Verification of the SCXML-to-JANI assembly and expression-normalization stage

Shallow embedding of `src/as2fm/jani_generator/scxml_helpers/scxml_to_jani.py`:
the model assembler (`convert_multiple_scxmls_to_jani`) and the expression
normalizer (`preprocess_jani_expressions`, `_preprocess_jani_expression`,
`_preprocess_array_comparison`).

The collaborating classes and helpers (`JaniExpression`, `JaniVariable`,
`jani_utils`, the expression generators, the three post-composition passes and
the per-statechart translator) are not part of the analyzed source file; they
are modelled from the specification, as indicated by the doc comments below.
Python `assert` failures and raised exceptions are modelled with `Except`.
-/

/-- Modelled from the spec: the JANI expression tree is a tagged variant of
literal, identifier reference, operator over named sub-expressions (an ordered
mapping role to expression), or array-value literal, each carrying an optional
traceability comment.  In the Python implementation an array value is stored as
an operator node with op `av` whose single operand is the element list; here it
is its own variant, so a manually built generic operator node with op `av` does
not represent any real expression. -/
inductive JaniExpression where
  | literal (value : Int) (comment : Option String)
  | identifier (name : String) (comment : Option String)
  | operator (op : String) (operands : List (String × JaniExpression)) (comment : Option String)
  | arrayValue (elements : List JaniExpression) (comment : Option String)
deriving Repr

/-- The optional traceability comment carried by every expression node. -/
def JaniExpression.comment : JaniExpression → Option String
  | .literal _ c => c
  | .identifier _ c => c
  | .operator _ _ c => c
  | .arrayValue _ c => c

/-- Replace the comment of a node (Python attribute assignment to `.comment`). -/
def JaniExpression.setComment : JaniExpression → Option String → JaniExpression
  | .literal v _, c => .literal v c
  | .identifier n _, c => .identifier n c
  | .operator op ops _, c => .operator op ops c
  | .arrayValue els _, c => .arrayValue els c

/-- Modelled from the spec: the expression-type tags used by the Python
`JaniExpressionType` enum, restricted to the tags the analyzed code inspects.
An array value is an operator node (`av`) in the Python implementation, hence
it is tagged `OPERATOR`. -/
inductive JaniExpressionType where
  | LITERAL
  | IDENTIFIER
  | OPERATOR
deriving DecidableEq, Repr

/-- Python `JaniExpression.get_expression_type`. -/
def JaniExpression.get_expression_type : JaniExpression → JaniExpressionType
  | .literal .. => .LITERAL
  | .identifier .. => .IDENTIFIER
  | .operator .. => .OPERATOR
  | .arrayValue .. => .OPERATOR

/-- Python `JaniExpression.as_identifier`: the name when the node is an
identifier reference, otherwise `None`. -/
def JaniExpression.as_identifier : JaniExpression → Option String
  | .identifier n _ => some n
  | _ => none

/-- Modelled from the spec: array metadata of a variable, with the number of
dimensions (at least 1) and a per-dimension capacity. -/
structure ArrayInfo where
  array_dimensions : Nat
  array_max_sizes : List Nat
deriving Repr, DecidableEq

/-- Modelled from the spec: a JANI variable is a name together with optional
array metadata (scalar type information is irrelevant to the analyzed code and
omitted). -/
structure JaniVariable where
  name : String
  array_info : Option ArrayInfo
deriving Repr, DecidableEq

/-- Python `JaniVariable.get_array_info`. -/
def JaniVariable.get_array_info (v : JaniVariable) : Option ArrayInfo := v.array_info

/-- Modelled from the spec: `jani_utils.is_variable_array`, true when the
variable carries array metadata. -/
def is_variable_array (v : JaniVariable) : Bool := v.array_info.isSome

/-- Modelled from the spec: `scxml_expression.get_array_length_var_name`, the
deterministic name of an array's companion length variable for one dimension
(the end-to-end scenario names dimension 1 of array `arr` as `arr_length_1`). -/
def get_array_length_var_name (array_name : String) (dimension : Nat) : String :=
  array_name ++ "_length_" ++ toString dimension

/-- Modelled from the spec: `jani_utils.is_expression_array`, a syntactic check
on a single expression (the call site passes no variable context), true exactly
on array-value literals. -/
def is_expression_array : JaniExpression → Bool
  | .arrayValue .. => true
  | _ => false

/-- A Python `Dict[str, JaniVariable]` used for identifier resolution,
modelled as an association list queried by first match. -/
abbrev ContextVars := List (String × JaniVariable)

/-- Python `dict.get`: the value bound to a name, if present. -/
def ctxGet : ContextVars → String → Option JaniVariable
  | [], _ => none
  | (k, v) :: rest, n => if k = n then some v else ctxGet rest n

/-- Python `name in dict`. -/
def ctxHasKey (ctx : ContextVars) (n : String) : Bool := (ctxGet ctx n).isSome

/-- Python dict union `a | b` (values of `b` win on duplicate keys), modelled
for first-match lookup by putting `b` first. -/
def dict_union (a b : ContextVars) : ContextVars := b ++ a

/-- Modelled from the spec: `jani_expression_generator.equal_operator`, an
equality operator node over `left` and `right` operands. -/
def equal_operator (l r : JaniExpression) : JaniExpression :=
  .operator "=" [("left", l), ("right", r)] none

/-- Modelled from the spec: `jani_expression_generator.and_operator`, a
conjunction operator node over `left` and `right` operands. -/
def and_operator (l r : JaniExpression) : JaniExpression :=
  .operator "∧" [("left", l), ("right", r)] none

/-- Modelled from the spec: `jani_expression_generator.array_access_operator`,
an array-access operator node over `exp` and `index` operands. -/
def array_access_operator (e i : JaniExpression) : JaniExpression :=
  .operator "aa" [("exp", e), ("index", i)] none

/-- Accumulator for the operand loop of `_preprocess_array_comparison`
(Python locals `array_elements`, `array_var_id`, `array_length_var_ids`, and
whether the `av` branch bound `array_operator`). -/
structure ArrayCmpState where
  array_elements : Option (List JaniExpression)
  array_var_id : Option String
  array_length_var_ids : List String
  seen_av_operator : Bool
deriving Repr

/-- Loop body of `_preprocess_array_comparison` (source lines 170-198): an
identifier operand is resolved in context, must be an array variable with
metadata, and every dimension's companion length variable must be in context;
any other operand must be an array-value literal whose elements are all
literals.  Python `assert` failures become errors. -/
def process_array_cmp_operand (context_vars : ContextVars) (st : ArrayCmpState)
    (operand : JaniExpression) : Except String ArrayCmpState :=
  match operand with
  | .identifier array_var_id _ =>
    match ctxGet context_vars array_var_id with
    | none => .error "Cannot find the array variable in context vars."
    | some array_variable =>
      if ¬ is_variable_array array_variable then
        .error "Variable is not an array."
      else
        match array_variable.get_array_info with
        | none => .error "Cannot get array info from JANI variable."
        | some array_info =>
          let array_length_var_ids :=
            (List.range array_info.array_dimensions).map
              (fun d => get_array_length_var_name array_var_id (d + 1))
          if array_length_var_ids.all (fun len_id => ctxHasKey context_vars len_id) then
            .ok { st with array_var_id := some array_var_id,
                          array_length_var_ids := array_length_var_ids }
          else
            .error "Missing length variables in context."
  | .arrayValue array_elements _ =>
    if array_elements.all
        (fun array_entry => array_entry.get_expression_type = JaniExpressionType.LITERAL) then
      .ok { st with array_elements := some array_elements, seen_av_operator := true }
    else
      .error "Found non-literal expressions in av operator. Are all array comparisons in 1D?"
  | _ => .error "Expected operand with op av."

/-- Python `for operand in exp_operands.values()` of
`_preprocess_array_comparison`, threading the accumulator. -/
def array_cmp_loop (context_vars : ContextVars) (st : ArrayCmpState) :
    List JaniExpression → Except String ArrayCmpState
  | [] => .ok st
  | operand :: rest =>
    match process_array_cmp_operand context_vars st operand with
    | .error msg => .error msg
    | .ok st2 => array_cmp_loop context_vars st2 rest

/-- Python `_preprocess_array_comparison` (source lines 160-214): requires an
equality operator, runs the operand loop, checks that an `av` operand and an
identifier operand were found, requires exactly one array dimension, then
rewrites the equality into `length_var == N` conjoined left-associatively with
`elements idx == array_access(var, idx)` for `idx` in `0..N`, and attaches the
original node's comment to the final conjunction. -/
def preprocess_array_comparison (jani_expression : JaniExpression)
    (context_vars : ContextVars) : Except String JaniExpression :=
  match jani_expression with
  | .operator exp_operator exp_operands jc =>
    if exp_operator ≠ "=" then .error "Expected an = operator."
    else
      match array_cmp_loop context_vars ⟨none, none, [], false⟩
          (exp_operands.map Prod.snd) with
      | .error msg => .error msg
      | .ok st =>
        if ¬ st.seen_av_operator then
          .error "No array operator found in the eq. operator."
        else
          match st.array_var_id with
          | none => .error "No array variable found in the eq. operator."
          | some array_var_id =>
            match st.array_elements with
            | none => .error "Unexpected value for array elements."
            | some array_elements =>
              let n_elements := array_elements.length
              if st.array_length_var_ids.length = 1 then
                let seed :=
                  equal_operator
                    (.identifier (st.array_length_var_ids.headD "") none)
                    (.literal (Int.ofNat n_elements) none)
                let last_expr := (List.range n_elements).foldl
                  (fun last idx =>
                    and_operator last
                      (equal_operator (array_elements.getD idx (.literal 0 none))
                        (array_access_operator (.identifier array_var_id none)
                          (.literal (Int.ofNat idx) none)))) seed
                .ok (last_expr.setComment jc)
              else
                .error "Trying to make comparisons across multi-dimensional arrays. Unsupported."
  | _ => .error "Expected an = operator."

mutual

/-- Python `_preprocess_jani_expression` (source lines 136-157): literals,
identifiers and array values are returned unchanged; an operator node with an
array-value operand must be an equality and is dispatched to
`preprocess_array_comparison`; any other operator node has its operands
recursively normalized, with roles, order and the node's comment preserved. -/
def preprocess_jani_expression (jani_expression : JaniExpression)
    (context_vars : ContextVars) : Except String JaniExpression :=
  match jani_expression with
  | .literal v c => .ok (.literal v c)
  | .identifier n c => .ok (.identifier n c)
  | .arrayValue els c => .ok (.arrayValue els c)
  | .operator exp_operator exp_operands c =>
    if exp_operands.any (fun p => is_expression_array p.2) then
      if exp_operator = "=" then
        preprocess_array_comparison (.operator exp_operator exp_operands c) context_vars
      else
        .error "Array operators can be only used for assignments and comparisons."
    else
      match preprocess_jani_operands exp_operands context_vars with
      | .error msg => .error msg
      | .ok new_operands => .ok (.operator exp_operator new_operands c)

/-- Python loop over `exp_operands.items()` in `_preprocess_jani_expression`,
rebuilding the operand mapping in order with each value normalized. -/
def preprocess_jani_operands (operands : List (String × JaniExpression))
    (context_vars : ContextVars) : Except String (List (String × JaniExpression)) :=
  match operands with
  | [] => .ok []
  | (operand_name, operand_expr) :: rest =>
    match preprocess_jani_expression operand_expr context_vars with
    | .error msg => .error msg
    | .ok new_expr =>
      match preprocess_jani_operands rest context_vars with
      | .error msg => .error msg
      | .ok new_rest => .ok ((operand_name, new_expr) :: new_rest)

end

/-- Modelled from the spec: an assignment carries a target expression and a
value expression; the normalizer rewrites only the value
(Python `JaniAssignment.get_expression` / `set_expression`). -/
structure JaniAssignment where
  ref : JaniExpression
  value : JaniExpression
deriving Repr

/-- Python `JaniAssignment.get_expression`. -/
def JaniAssignment.get_expression (a : JaniAssignment) : JaniExpression := a.value

/-- Python `JaniAssignment.set_expression`. -/
def JaniAssignment.set_expression (a : JaniAssignment) (e : JaniExpression) : JaniAssignment :=
  { a with value := e }

/-- Modelled from the spec: an edge destination with a weight expression and
ordered assignments (the normalizer rewrites only the assignments). -/
structure JaniDestination where
  location : String
  probability : Option JaniExpression
  assignments : List JaniAssignment
deriving Repr

/-- Modelled from the spec: an edge with an optional guard expression and
ordered destinations. -/
structure JaniEdge where
  action : Option String
  guard : Option JaniExpression
  destinations : List JaniDestination
deriving Repr

/-- Modelled from the spec: an automaton with a unique name, a local variable
registry (Python `get_variables`) and ordered edges. -/
structure JaniAutomaton where
  name : String
  local_variables : ContextVars
  edges : List JaniEdge
deriving Repr

/-- Modelled from the spec: a verification property, a named ordered mapping of
roles to expressions (Python `get_property_operands`). -/
structure JaniProperty where
  name : String
  property_operands : List (String × JaniExpression)
deriving Repr

/-- Modelled from the spec: the composite model with global variables, feature
flags, ordered automata and ordered properties. -/
structure JaniModel where
  global_variables : ContextVars
  features : List String
  automata : List JaniAutomaton
  properties : List JaniProperty
deriving Repr

/-- Python in-place loops rewriting each element of a list with a fallible
rewriter, failing fast on the first error. -/
def preprocess_list {α : Type} (f : α → Except String α) : List α → Except String (List α)
  | [] => .ok []
  | x :: rest =>
    match f x with
    | .error msg => .error msg
    | .ok y =>
      match preprocess_list f rest with
      | .error msg => .error msg
      | .ok ys => .ok (y :: ys)

/-- Guard rewriting of `preprocess_jani_expressions` (source lines 118-123): a
missing guard is left untouched, a present guard expression is normalized. -/
def preprocess_guard (guard : Option JaniExpression) (context_vars : ContextVars) :
    Except String (Option JaniExpression) :=
  match guard with
  | none => .ok none
  | some guard_exp =>
    match preprocess_jani_expression guard_exp context_vars with
    | .error msg => .error msg
    | .ok g2 => .ok (some g2)

/-- Assignment rewriting of `preprocess_jani_expressions` (source lines
126-129): the assignment's value expression is normalized. -/
def preprocess_assignment (a : JaniAssignment) (context_vars : ContextVars) :
    Except String JaniAssignment :=
  match preprocess_jani_expression a.get_expression context_vars with
  | .error msg => .error msg
  | .ok e2 => .ok (a.set_expression e2)

/-- Destination rewriting of `preprocess_jani_expressions` (source lines
124-129): every assignment of the destination is rewritten. -/
def preprocess_destination (d : JaniDestination) (context_vars : ContextVars) :
    Except String JaniDestination :=
  match preprocess_list (fun a => preprocess_assignment a context_vars) d.assignments with
  | .error msg => .error msg
  | .ok as2 => .ok { d with assignments := as2 }

/-- Edge rewriting of `preprocess_jani_expressions` (source lines 117-129):
the guard and every destination assignment are rewritten. -/
def preprocess_edge (e : JaniEdge) (context_vars : ContextVars) : Except String JaniEdge :=
  match preprocess_guard e.guard context_vars with
  | .error msg => .error msg
  | .ok g2 =>
    match preprocess_list (fun d => preprocess_destination d context_vars) e.destinations with
    | .error msg => .error msg
    | .ok ds2 => .ok { e with guard := g2, destinations := ds2 }

/-- Per-automaton rewriting of `preprocess_jani_expressions` (source lines
115-129): every edge is rewritten against the supplied resolution context. -/
def preprocess_automaton (a : JaniAutomaton) (context_variables : ContextVars) :
    Except String JaniAutomaton :=
  match preprocess_list (fun e => preprocess_edge e context_variables) a.edges with
  | .error msg => .error msg
  | .ok es2 => .ok { a with edges := es2 }

/-- Property rewriting of `preprocess_jani_expressions` (source lines
130-133): every property operand expression is rewritten. -/
def preprocess_property (p : JaniProperty) (global_variables : ContextVars) :
    Except String JaniProperty :=
  match preprocess_list
      (fun q =>
        match preprocess_jani_expression q.2 global_variables with
        | .error msg => .error msg
        | .ok e2 => .ok (q.1, e2))
      p.property_operands with
  | .error msg => .error msg
  | .ok ops2 => .ok { p with property_operands := ops2 }

/-- Python `preprocess_jani_expressions` (source lines 108-133): every
automaton's edges are rewritten against the union of the global variables and
the automaton's local variables (`global_variables | jani_automaton.
get_variables()`), and every property operand is rewritten against the global
variables only. -/
def preprocess_jani_expressions (jani_model : JaniModel) : Except String JaniModel :=
  match preprocess_list
      (fun a => preprocess_automaton a (dict_union jani_model.global_variables a.local_variables))
      jani_model.automata with
  | .error msg => .error msg
  | .ok autos =>
    match preprocess_list (fun p => preprocess_property p jani_model.global_variables)
        jani_model.properties with
    | .error msg => .error msg
    | .ok props => .ok { jani_model with automata := autos, properties := props }

/-- Modelled from the spec: a statechart-model handle, exposing its name, an
opaque source locator and whether it is a plain SCXML model. -/
structure ScxmlRoot where
  name : String
  xml_origin : String
  plain_scxml : Bool
deriving Repr, DecidableEq

/-- Python `ScxmlRoot.get_name`. -/
def ScxmlRoot.get_name (s : ScxmlRoot) : String := s.name

/-- Python `ScxmlRoot.is_plain_scxml`. -/
def ScxmlRoot.is_plain_scxml (s : ScxmlRoot) : Bool := s.plain_scxml

/-- Python `ScxmlRoot.get_xml_origin`. -/
def ScxmlRoot.get_xml_origin (s : ScxmlRoot) : String := s.xml_origin

/-- Python `JaniModel.add_feature`. -/
def JaniModel.add_feature (m : JaniModel) (f : String) : JaniModel :=
  { m with features := m.features ++ [f] }

/-- Modelled from the spec: `JaniModel.add_jani_automaton` folds an automaton
into the model; a name collision with an already-present automaton is a fatal
configuration error. -/
def JaniModel.add_jani_automaton (m : JaniModel) (a : JaniAutomaton) :
    Except String JaniModel :=
  if m.automata.any (fun b => b.name = a.name) then
    .error "Duplicate automaton name in the model."
  else
    .ok { m with automata := m.automata ++ [a] }

/-- The empty model created by `JaniModel()`. -/
def emptyJaniModel : JaniModel := ⟨[], [], [], []⟩

/-- The base model of `convert_multiple_scxmls_to_jani` (source lines 82-84):
an empty model with the fixed feature set. -/
def assemblerBaseModel : JaniModel :=
  (emptyJaniModel.add_feature "arrays").add_feature "trigonometric-functions"

/-- A `log_error` record: source locator and message. -/
structure LogEntry where
  origin : String
  message : String
deriving Repr, DecidableEq

/-- Errors escaping the assembler: its own fatal contract checks (Python
`assert`, duplicate automaton names), or a translator error re-raised
unchanged. -/
inductive AssemblyError (ε : Type) where
  | configuration_error (message : String)
  | translation_failed (err : ε)
deriving Repr

/-- Modelled from the spec: the external collaborators of the assembler, kept
opaque as the spec requires — the per-statechart translator (which threads the
shared mutable event registry of type `η` and may fail with an error of type
`ε`), synchronization-edge synthesis (consuming the event registry),
self-loop pruning, and randomized-choice expansion (taking the outcome cap). -/
structure AssemblerOps (η ε : Type) where
  empty_events_holder : η
  convert_root : ScxmlRoot → η → Nat → Except ε (JaniAutomaton × η)
  implement_scxml_events_as_jani_syncs : η → Nat → JaniModel → JaniModel
  remove_empty_self_loops : JaniModel → JaniModel
  expand_random_variables : JaniModel → Nat → JaniModel

/-- The per-input loop of `convert_multiple_scxmls_to_jani` (source lines
86-101): inputs are processed in order; a non-plain input is a fatal
configuration error; a translator failure is logged with the input's source
locator and name and re-raised unchanged; a successful automaton is folded
into the model. -/
def fold_scxml_inputs {η ε : Type} (ops : AssemblerOps η ε) (max_array_size : Nat) :
    JaniModel → η → List LogEntry → List ScxmlRoot →
    List LogEntry × Except (AssemblyError ε) (JaniModel × η)
  | base_model, events_holder, log, [] => (log, .ok (base_model, events_holder))
  | base_model, events_holder, log, input_scxml :: rest =>
    if ¬ input_scxml.is_plain_scxml then
      (log, .error (.configuration_error
        ("Input model " ++ input_scxml.get_name ++ " does not contain a plain SCXML model.")))
    else
      match ops.convert_root input_scxml events_holder max_array_size with
      | .error e =>
        (log ++ [⟨input_scxml.get_xml_origin,
                  "Error while converting SCXML model " ++ input_scxml.get_name ++ "."⟩],
         .error (.translation_failed e))
      | .ok (automaton, events2) =>
        match base_model.add_jani_automaton automaton with
        | .error msg => (log, .error (.configuration_error msg))
        | .ok model2 => fold_scxml_inputs ops max_array_size model2 events2 log rest

/-- Python `convert_multiple_scxmls_to_jani` (source lines 72-105): folds all
inputs into the base model, then runs synchronization-edge synthesis, self-loop
pruning and randomized-choice expansion with the outcome count capped at 100,
in that fixed order. -/
def convert_multiple_scxmls_to_jani {η ε : Type} (ops : AssemblerOps η ε)
    (scxmls : List ScxmlRoot) (max_array_size : Nat) :
    List LogEntry × Except (AssemblyError ε) JaniModel :=
  match fold_scxml_inputs ops max_array_size assemblerBaseModel
      ops.empty_events_holder [] scxmls with
  | (log, .error e) => (log, .error e)
  | (log, .ok (base_model, events_holder)) =>
    let m1 := ops.implement_scxml_events_as_jani_syncs events_holder max_array_size base_model
    let m2 := ops.remove_empty_self_loops m1
    let m3 := ops.expand_random_variables m2 100
    (log, .ok m3)

example :
    preprocess_jani_expression
      (.operator "="
        [("left", .identifier "arr" none),
         ("right", .arrayValue [.literal 1 none, .literal 2 none] none)]
        (some "guard"))
      [("arr", ⟨"arr", some ⟨1, [5]⟩⟩), ("arr_length_1", ⟨"arr_length_1", none⟩)]
    = .ok
        (.operator "∧"
          [("left",
            .operator "∧"
              [("left",
                .operator "="
                  [("left", .identifier "arr_length_1" none),
                   ("right", .literal 2 none)] none),
               ("right",
                .operator "="
                  [("left", .literal 1 none),
                   ("right",
                    .operator "aa"
                      [("exp", .identifier "arr" none),
                       ("index", .literal 0 none)] none)] none)]
              none),
           ("right",
            .operator "="
              [("left", .literal 2 none),
               ("right",
                .operator "aa"
                  [("exp", .identifier "arr" none),
                   ("index", .literal 1 none)] none)] none)]
          (some "guard")) := rfl

/-! ## The expansion chain as the spec words it -/

/-- The rewritten form described by the spec (section 4.3, steps 4-6): starting
from a seed expression, for each element in order, conjoin on the right the
equality between the element and the array access at its index, producing a
left-associated conjunction chain. -/
def specExpansionChain (array_var_id : String) :
    JaniExpression → Nat → List JaniExpression → JaniExpression
  | seed, _, [] => seed
  | seed, idx, el :: rest =>
    specExpansionChain array_var_id
      (and_operator seed
        (equal_operator el
          (array_access_operator (.identifier array_var_id none)
            (.literal (Int.ofNat idx) none))))
      (idx + 1) rest

theorem drop_cons_getElem {α : Type} :
    ∀ (full : List α) (k : Nat) (e : α) (rest : List α),
      full.drop k = e :: rest → full[k]? = some e ∧ full.drop (k + 1) = rest := by
  intro full
  induction full with
  | nil =>
    intro k e rest h
    simp at h
  | cons x xs ih =>
    intro k e rest h
    cases k with
    | zero =>
      simp only [List.drop_zero] at h
      cases h
      simp
    | succ k =>
      simp only [List.drop_succ_cons] at h
      simpa using ih k e rest h

theorem range'_fold_eq_specExpansionChain (array_var_id : String)
    (full : List JaniExpression) :
    ∀ (tail : List JaniExpression) (k : Nat) (seed : JaniExpression),
      full.drop k = tail →
      (List.range' k tail.length).foldl
        (fun last idx =>
          and_operator last
            (equal_operator (full.getD idx (.literal 0 none))
              (array_access_operator (.identifier array_var_id none)
                (.literal (Int.ofNat idx) none)))) seed
      = specExpansionChain array_var_id seed k tail := by
  intro tail
  induction tail with
  | nil =>
    intro k seed _
    simp [specExpansionChain]
  | cons e rest ih =>
    intro k seed h
    obtain ⟨h1, h2⟩ := drop_cons_getElem full k e rest h
    have h1d : full.getD k (JaniExpression.literal 0 none) = e := by
      simp [List.getD_eq_getElem?_getD, h1]
    rw [List.length_cons, List.range'_succ, List.foldl_cons, h1d, specExpansionChain]
    exact ih (k + 1) _ h2

theorem range_fold_eq_specExpansionChain (array_var_id : String)
    (elems : List JaniExpression) (seed : JaniExpression) :
    (List.range elems.length).foldl
      (fun last idx =>
        and_operator last
          (equal_operator (elems.getD idx (.literal 0 none))
            (array_access_operator (.identifier array_var_id none)
              (.literal (Int.ofNat idx) none)))) seed
    = specExpansionChain array_var_id seed 0 elems := by
  rw [List.range_eq_range']
  exact range'_fold_eq_specExpansionChain array_var_id elems elems 0 seed rfl

theorem preprocess_array_comparison_of_loop
    (ops : List (String × JaniExpression)) (c : Option String) (ctx : ContextVars)
    (elems : List JaniExpression) (arr_id len_id : String)
    (h : array_cmp_loop ctx ⟨none, none, [], false⟩ (ops.map Prod.snd)
          = .ok ⟨some elems, some arr_id, [len_id], true⟩) :
    preprocess_array_comparison (.operator "=" ops c) ctx
      = .ok (((List.range elems.length).foldl
          (fun last idx =>
            and_operator last
              (equal_operator (elems.getD idx (.literal 0 none))
                (array_access_operator (.identifier arr_id none)
                  (.literal (Int.ofNat idx) none))))
          (equal_operator (.identifier len_id none)
            (.literal (Int.ofNat elems.length) none))).setComment c) := by
  rw [preprocess_array_comparison, h]
  rfl

/-! ## Claim C1: array-equality expansion -/

/-- C1: for every equality expression whose operands are, in either order, an
identifier naming a one-dimensional array-typed variable and an array-value
literal with N literal elements (any N, zero included), normalization replaces
it by the left-associated conjunction obtained by seeding with
`length_var == N` and then, for each index in order, conjoining
`array_value idx == array_access(array_identifier, idx)`; the original
equality node's comment is attached to the final conjunction. -/
theorem C1_array_equality_expansion
    (ctx : ContextVars) (r1 r2 arr_id : String) (ic ec c : Option String)
    (elems : List JaniExpression) (v : JaniVariable) (info : ArrayInfo)
    (ops : List (String × JaniExpression))
    (h_ops : ops = [(r1, .identifier arr_id ic), (r2, .arrayValue elems ec)] ∨
             ops = [(r1, .arrayValue elems ec), (r2, .identifier arr_id ic)])
    (h_var : ctxGet ctx arr_id = some v)
    (h_info : v.array_info = some info)
    (h_dim : info.array_dimensions = 1)
    (h_len : ctxHasKey ctx (get_array_length_var_name arr_id 1) = true)
    (h_lit : (elems.all fun e => e.get_expression_type = JaniExpressionType.LITERAL) = true) :
    preprocess_jani_expression (.operator "=" ops c) ctx
      = .ok ((specExpansionChain arr_id
          (equal_operator
            (.identifier (get_array_length_var_name arr_id 1) none)
            (.literal (Int.ofNat elems.length) none))
          0 elems).setComment c) := by
  have h_loop :
      array_cmp_loop ctx ⟨none, none, [], false⟩ (ops.map Prod.snd)
        = .ok ⟨some elems, some arr_id, [get_array_length_var_name arr_id 1], true⟩ := by
    rcases h_ops with h | h <;> subst h <;>
      simp [array_cmp_loop, process_array_cmp_operand, h_var, h_lit,
            is_variable_array, h_info, JaniVariable.get_array_info, h_dim,
            List.range_succ, h_len]
  have h_av : (ops.any fun p => is_expression_array p.2) = true := by
    rcases h_ops with h | h <;> subst h <;> simp [is_expression_array]
  have h_dispatch : preprocess_jani_expression (.operator "=" ops c) ctx
      = preprocess_array_comparison (.operator "=" ops c) ctx := by
    rw [preprocess_jani_expression, h_av]
    rfl
  rw [h_dispatch,
      preprocess_array_comparison_of_loop ops c ctx elems arr_id
        (get_array_length_var_name arr_id 1) h_loop]
  exact congrArg (fun x => Except.ok (x.setComment c))
    (range_fold_eq_specExpansionChain arr_id elems _)

/-- Witness for C1 at the spec's end-to-end scenario: array `arr` with length
variable `arr_length_1`, compared against the literal `[1, 2]`. -/
theorem C1_witness :
    preprocess_jani_expression
      (.operator "="
        [("left", .identifier "arr" none),
         ("right", .arrayValue [.literal 1 none, .literal 2 none] none)]
        (some "origin"))
      [("arr", ⟨"arr", some ⟨1, [5]⟩⟩), ("arr_length_1", ⟨"arr_length_1", none⟩)]
      = .ok
          (.operator "∧"
            [("left",
              .operator "∧"
                [("left",
                  .operator "="
                    [("left", .identifier "arr_length_1" none),
                     ("right", .literal 2 none)] none),
                 ("right",
                  .operator "="
                    [("left", .literal 1 none),
                     ("right",
                      .operator "aa"
                        [("exp", .identifier "arr" none),
                         ("index", .literal 0 none)] none)] none)]
                none),
             ("right",
              .operator "="
                [("left", .literal 2 none),
                 ("right",
                  .operator "aa"
                    [("exp", .identifier "arr" none),
                     ("index", .literal 1 none)] none)] none)]
            (some "origin")) :=
  (C1_array_equality_expansion
    [("arr", ⟨"arr", some ⟨1, [5]⟩⟩), ("arr_length_1", ⟨"arr_length_1", none⟩)]
    "left" "right" "arr" none none (some "origin")
    [.literal 1 none, .literal 2 none] ⟨"arr", some ⟨1, [5]⟩⟩ ⟨1, [5]⟩ _
    (Or.inl rfl) rfl rfl rfl rfl rfl).trans rfl

/-! ## Shared reduction helpers for the dispatch and the comparison errors -/

theorem preprocess_dispatch_eq (ctx : ContextVars) (op : String)
    (ops : List (String × JaniExpression)) (c : Option String)
    (h_av : (ops.any fun p => is_expression_array p.2) = true) (h_op : op = "=") :
    preprocess_jani_expression (.operator op ops c) ctx
      = preprocess_array_comparison (.operator op ops c) ctx := by
  subst h_op
  rw [preprocess_jani_expression, h_av]
  rfl

theorem preprocess_array_comparison_of_loop_error
    (ops : List (String × JaniExpression)) (c : Option String) (ctx : ContextVars)
    (msg : String)
    (h : array_cmp_loop ctx ⟨none, none, [], false⟩ (ops.map Prod.snd) = .error msg) :
    preprocess_array_comparison (.operator "=" ops c) ctx = .error msg := by
  rw [preprocess_array_comparison, h]
  rfl

theorem preprocess_array_comparison_multidim
    (ops : List (String × JaniExpression)) (c : Option String) (ctx : ContextVars)
    (elems : List JaniExpression) (arr_id : String) (len_ids : List String)
    (h : array_cmp_loop ctx ⟨none, none, [], false⟩ (ops.map Prod.snd)
          = .ok ⟨some elems, some arr_id, len_ids, true⟩)
    (h_ne : len_ids.length ≠ 1) :
    preprocess_array_comparison (.operator "=" ops c) ctx
      = .error "Trying to make comparisons across multi-dimensional arrays. Unsupported." := by
  rw [preprocess_array_comparison, h]
  simp [h_ne]

theorem preprocess_array_comparison_no_identifier
    (ops : List (String × JaniExpression)) (c : Option String) (ctx : ContextVars)
    (elems : List JaniExpression) (len_ids : List String)
    (h : array_cmp_loop ctx ⟨none, none, [], false⟩ (ops.map Prod.snd)
          = .ok ⟨some elems, none, len_ids, true⟩) :
    preprocess_array_comparison (.operator "=" ops c) ctx
      = .error "No array variable found in the eq. operator." := by
  rw [preprocess_array_comparison, h]
  rfl

/-! ## Claim C2: the dispatch condition of the normalizer -/

theorem preprocess_jani_operands_shape (ctx : ContextVars) :
    ∀ (ops new_ops : List (String × JaniExpression)),
      preprocess_jani_operands ops ctx = .ok new_ops →
      new_ops.map Prod.fst = ops.map Prod.fst ∧
      ∀ p ∈ ops.zip new_ops,
        p.1.1 = p.2.1 ∧ preprocess_jani_expression p.1.2 ctx = .ok p.2.2 := by
  intro ops
  induction ops with
  | nil =>
    intro new_ops h
    rw [preprocess_jani_operands] at h
    injection h with h
    subst h
    simp
  | cons hd tl ih =>
    intro new_ops h
    obtain ⟨n, e⟩ := hd
    rw [preprocess_jani_operands] at h
    cases hpe : preprocess_jani_expression e ctx with
    | error m => rw [hpe] at h; exact absurd h (by simp)
    | ok e2 =>
      rw [hpe] at h
      cases hpr : preprocess_jani_operands tl ctx with
      | error m => rw [hpr] at h; exact absurd h (by simp)
      | ok tl2 =>
        rw [hpr] at h
        injection h with h
        subst h
        obtain ⟨ih1, ih2⟩ := ih tl2 hpr
        refine ⟨by simp [ih1], ?_⟩
        intro p hp
        rw [List.zip_cons_cons, List.mem_cons] at hp
        rcases hp with hp | hp
        · subst hp
          exact ⟨rfl, hpe⟩
        · exact ih2 p hp

/-- C2 counterexample: in context `c2Ctx` both `x` and `y` are array-typed
variables (with their length variables present), yet the equality `x == y` is
not dispatched to array-comparison handling: normalization recurses and
returns the node unchanged, while array-comparison handling would have raised
a fatal error.  The claimed dispatch on an array-typed identifier operand does
not happen, because the array check on operands is syntactic. -/
def c2Ctx : ContextVars :=
  [("x", ⟨"x", some ⟨1, [5]⟩⟩), ("y", ⟨"y", some ⟨1, [5]⟩⟩),
   ("x_length_1", ⟨"x_length_1", none⟩), ("y_length_1", ⟨"y_length_1", none⟩)]

def c2Expr : JaniExpression :=
  .operator "=" [("left", .identifier "x" none), ("right", .identifier "y" none)] none

/-- C2 (counterexample): an equality whose operands are two array-typed
identifiers is not dispatched to array-comparison handling; it is returned
unchanged by the recursive case, although the claim requires dispatch (which
here would raise a fatal error, as the last conjunct shows). -/
theorem C2_counterexample :
    is_variable_array ⟨"x", some ⟨1, [5]⟩⟩ = true ∧
    is_variable_array ⟨"y", some ⟨1, [5]⟩⟩ = true ∧
    preprocess_jani_expression c2Expr c2Ctx = .ok c2Expr ∧
    preprocess_array_comparison c2Expr c2Ctx
      = .error "No array operator found in the eq. operator." :=
  ⟨rfl, rfl, rfl, rfl⟩

/-- C2 (amended): during normalization of an operator node, each operand is
recursively normalized with its role and order preserved, unless one or more
operands is an array-value literal, in which case the node is dispatched to
array-comparison handling (for an equality operator; any other operator is a
fatal error); an operand that is an identifier naming an array-typed variable
does not by itself trigger the dispatch. -/
theorem C2_amended_dispatch_on_array_value_only
    (ctx : ContextVars) (op : String) (ops : List (String × JaniExpression))
    (c : Option String) :
    ((ops.any fun p => is_expression_array p.2) = true → op = "=" →
      preprocess_jani_expression (.operator op ops c) ctx
        = preprocess_array_comparison (.operator op ops c) ctx)
    ∧ (∀ new_ops, (ops.any fun p => is_expression_array p.2) = false →
        preprocess_jani_operands ops ctx = .ok new_ops →
        preprocess_jani_expression (.operator op ops c) ctx
          = .ok (.operator op new_ops c) ∧
        new_ops.map Prod.fst = ops.map Prod.fst ∧
        ∀ p ∈ ops.zip new_ops,
          p.1.1 = p.2.1 ∧ preprocess_jani_expression p.1.2 ctx = .ok p.2.2)
    ∧ (∀ msg, (ops.any fun p => is_expression_array p.2) = false →
        preprocess_jani_operands ops ctx = .error msg →
        preprocess_jani_expression (.operator op ops c) ctx = .error msg) := by
  refine ⟨fun h_av h_op => preprocess_dispatch_eq ctx op ops c h_av h_op, ?_, ?_⟩
  · intro new_ops h_av h_ok
    obtain ⟨h1, h2⟩ := preprocess_jani_operands_shape ctx ops new_ops h_ok
    refine ⟨?_, h1, h2⟩
    rw [preprocess_jani_expression, h_av, h_ok]
    rfl
  · intro msg h_av h_err
    rw [preprocess_jani_expression, h_av, h_err]
    rfl

/-- Witness for C2 (amended): the dispatch fires on an equality with an
array-value operand, and the recursive case preserves roles and order on an
operator without array-value operands. -/
theorem C2_amended_witness :
    preprocess_jani_expression
      (.operator "=" [("left", .identifier "x" none), ("right", .arrayValue [] none)] none)
      c2Ctx
      = preprocess_array_comparison
          (.operator "=" [("left", .identifier "x" none), ("right", .arrayValue [] none)] none)
          c2Ctx ∧
    preprocess_jani_expression
      (.operator "+" [("left", .literal 1 none), ("right", .literal 2 none)] none) c2Ctx
      = .ok (.operator "+" [("left", .literal 1 none), ("right", .literal 2 none)] none) :=
  ⟨(C2_amended_dispatch_on_array_value_only c2Ctx "="
      [("left", .identifier "x" none), ("right", .arrayValue [] none)] none).1 rfl rfl,
   ((C2_amended_dispatch_on_array_value_only c2Ctx "+"
      [("left", .literal 1 none), ("right", .literal 2 none)] none).2.1
      [("left", .literal 1 none), ("right", .literal 2 none)] rfl rfl).1⟩

/-! ## Claim C3: array operands under non-equality operators -/

mutual

/-- The trigger condition of the claim, as the spec words it: somewhere in the
expression tree (array-value elements included) an array-value operand sits
under an operator other than equality. -/
def has_array_under_non_eq : JaniExpression → Bool
  | .literal _ _ => false
  | .identifier _ _ => false
  | .operator op ops _ =>
    ((op != "=") && ops.any (fun p => is_expression_array p.2))
      || has_array_under_non_eq_ops ops
  | .arrayValue els _ => has_array_under_non_eq_elems els

def has_array_under_non_eq_ops : List (String × JaniExpression) → Bool
  | [] => false
  | (_, e) :: rest => has_array_under_non_eq e || has_array_under_non_eq_ops rest

def has_array_under_non_eq_elems : List JaniExpression → Bool
  | [] => false
  | e :: rest => has_array_under_non_eq e || has_array_under_non_eq_elems rest

end

/-- C3 counterexample input: an array-value literal one of whose elements is a
sum with an array-value operand. -/
def c3Expr : JaniExpression :=
  .arrayValue
    [.operator "+"
      [("left", .arrayValue [.literal 1 none] none), ("right", .literal 2 none)] none]
    none

/-- C3 (counterexample): `c3Expr` contains an array operand under the
non-equality operator `+`, yet normalization raises no error: array-value
literals are returned unchanged without inspecting their elements. -/
theorem C3_counterexample :
    has_array_under_non_eq c3Expr = true ∧
    preprocess_jani_expression c3Expr [] = .ok c3Expr :=
  ⟨rfl, rfl⟩

/-- C3 (amended): for every expression whose top-level node is an operator
other than equality with an array-value operand, normalization raises a fatal
error rather than producing a rewritten expression.  (Array operands nested
inside array-value literals are not inspected, and an array-typed identifier
operand does not trigger the check.) -/
theorem C3_amended_nonequality_array_error
    (ctx : ContextVars) (op : String) (ops : List (String × JaniExpression))
    (c : Option String)
    (h_ne : op ≠ "=")
    (h_av : (ops.any fun p => is_expression_array p.2) = true) :
    preprocess_jani_expression (.operator op ops c) ctx
      = .error "Array operators can be only used for assignments and comparisons." := by
  rw [preprocess_jani_expression, h_av]
  simp [h_ne]

/-- Witness for C3 (amended): an array access into an array literal is fatal. -/
theorem C3_amended_witness :
    preprocess_jani_expression
      (.operator "aa"
        [("exp", .arrayValue [.literal 1 none, .literal 2 none] none),
         ("index", .literal 0 none)] none) []
      = .error "Array operators can be only used for assignments and comparisons." :=
  C3_amended_nonequality_array_error []
    "aa"
    [("exp", .arrayValue [.literal 1 none, .literal 2 none] none),
     ("index", .literal 0 none)]
    none (by decide) rfl

/-! ## Claim C4: order of the dimension check and the length-variable lookup -/

/-- C4 counterexample context: a two-dimensional array `m` whose companion
length variables are absent from the context. -/
def c4Ctx : ContextVars := [("m", ⟨"m", some ⟨2, [3, 3]⟩⟩)]

def c4Expr : JaniExpression :=
  .operator "="
    [("left", .identifier "m" none), ("right", .arrayValue [.literal 1 none] none)] none

/-- C4 (counterexample): for a multi-dimensional array whose length variables
are missing, the code raises the missing-length-variables error, not the
multi-dimensional-unsupported error the claim says decides the outcome first:
the length-variable lookup runs before the dimension check. -/
theorem C4_counterexample :
    preprocess_jani_expression c4Expr c4Ctx
      = .error "Missing length variables in context." ∧
    "Missing length variables in context."
      ≠ "Trying to make comparisons across multi-dimensional arrays. Unsupported." :=
  ⟨rfl, by decide⟩

/-- C4 (amended): array-equality expansion first resolves the companion
length variables of every dimension of the resolved array identifier, raising
the fatal missing-length-variables error if any is absent, and only then
requires exactly one dimension, raising the fatal multi-dimensional-unsupported
error otherwise; hence for a multi-dimensional array the length-variable
lookup, not the dimension check, decides the outcome. -/
theorem C4_amended_lookup_before_dimension_check
    (ctx : ContextVars) (r1 r2 arr_id : String) (ic ec c : Option String)
    (elems : List JaniExpression) (v : JaniVariable) (info : ArrayInfo)
    (ops : List (String × JaniExpression)) (len_ids : List String)
    (h_ops : ops = [(r1, .identifier arr_id ic), (r2, .arrayValue elems ec)] ∨
             ops = [(r1, .arrayValue elems ec), (r2, .identifier arr_id ic)])
    (h_var : ctxGet ctx arr_id = some v)
    (h_info : v.array_info = some info)
    (h_lit : (elems.all fun e => e.get_expression_type = JaniExpressionType.LITERAL) = true)
    (h_ids : len_ids = (List.range info.array_dimensions).map
      (fun d => get_array_length_var_name arr_id (d + 1))) :
    ((len_ids.all fun i => ctxHasKey ctx i) = false →
      preprocess_jani_expression (.operator "=" ops c) ctx
        = .error "Missing length variables in context.")
    ∧ ((len_ids.all fun i => ctxHasKey ctx i) = true → info.array_dimensions ≠ 1 →
      preprocess_jani_expression (.operator "=" ops c) ctx
        = .error "Trying to make comparisons across multi-dimensional arrays. Unsupported.") := by
  have h_av : (ops.any fun p => is_expression_array p.2) = true := by
    rcases h_ops with h | h <;> subst h <;> simp [is_expression_array]
  constructor
  · intro h_missing
    rw [preprocess_dispatch_eq ctx "=" ops c h_av rfl]
    refine preprocess_array_comparison_of_loop_error ops c ctx _ ?_
    rcases h_ops with h | h <;> subst h <;>
      simp [array_cmp_loop, process_array_cmp_operand, h_var, h_lit,
            is_variable_array, h_info, JaniVariable.get_array_info,
            ← h_ids, h_missing]
  · intro h_present h_dims
    rw [preprocess_dispatch_eq ctx "=" ops c h_av rfl]
    have h_loop :
        array_cmp_loop ctx ⟨none, none, [], false⟩ (ops.map Prod.snd)
          = .ok ⟨some elems, some arr_id, len_ids, true⟩ := by
      rcases h_ops with h | h <;> subst h <;>
        simp [array_cmp_loop, process_array_cmp_operand, h_var, h_lit,
              is_variable_array, h_info, JaniVariable.get_array_info,
              ← h_ids, h_present]
    refine preprocess_array_comparison_multidim ops c ctx elems arr_id len_ids h_loop ?_
    simpa [h_ids] using h_dims

/-- The C4 counterexample context extended with both length variables. -/
def c4CtxFull : ContextVars :=
  [("m", ⟨"m", some ⟨2, [3, 3]⟩⟩),
   ("m_length_1", ⟨"m_length_1", none⟩), ("m_length_2", ⟨"m_length_2", none⟩)]

/-- Witness for C4 (amended), on a two-dimensional array `m`: with the length
variables absent the missing-length error is raised, and with both length
variables present the multi-dimensional error is raised. -/
theorem C4_amended_witness :
    preprocess_jani_expression c4Expr c4Ctx
      = .error "Missing length variables in context." ∧
    preprocess_jani_expression c4Expr c4CtxFull
      = .error "Trying to make comparisons across multi-dimensional arrays. Unsupported." :=
  ⟨(C4_amended_lookup_before_dimension_check c4Ctx "left" "right" "m" none none none
      [.literal 1 none] ⟨"m", some ⟨2, [3, 3]⟩⟩ ⟨2, [3, 3]⟩
      [("left", .identifier "m" none), ("right", .arrayValue [.literal 1 none] none)]
      ["m_length_1", "m_length_2"]
      (Or.inl rfl) rfl rfl rfl rfl).1 rfl,
   (C4_amended_lookup_before_dimension_check c4CtxFull "left" "right" "m" none none none
      [.literal 1 none] ⟨"m", some ⟨2, [3, 3]⟩⟩ ⟨2, [3, 3]⟩
      [("left", .identifier "m" none), ("right", .arrayValue [.literal 1 none] none)]
      ["m_length_1", "m_length_2"]
      (Or.inl rfl) rfl rfl rfl rfl).2 rfl (by decide)⟩

/-! ## Claim C5: non-literal elements in a compared array value -/

/-- C5: for every array comparison whose array-value operand contains at least
one element that is not a literal, normalization raises the fatal non-literal
error instead of expanding the comparison — whether the array value is the
first operand (whatever the second operand is) or the second operand, after an
identifier operand that resolves to an array variable with its length
variables in context. -/
theorem C5_non_literal_element_error
    (ctx : ContextVars) (r1 r2 : String) (elems : List JaniExpression)
    (ec c : Option String)
    (h_bad : (elems.all fun e => e.get_expression_type = JaniExpressionType.LITERAL) = false) :
    (∀ (other : String × JaniExpression),
      preprocess_jani_expression (.operator "=" [(r1, .arrayValue elems ec), other] c) ctx
        = .error
          "Found non-literal expressions in av operator. Are all array comparisons in 1D?")
    ∧ (∀ (arr_id : String) (ic : Option String) (v : JaniVariable) (info : ArrayInfo),
        ctxGet ctx arr_id = some v → v.array_info = some info →
        (((List.range info.array_dimensions).map
            (fun d => get_array_length_var_name arr_id (d + 1))).all
          (fun i => ctxHasKey ctx i)) = true →
        preprocess_jani_expression
          (.operator "=" [(r1, .identifier arr_id ic), (r2, .arrayValue elems ec)] c) ctx
          = .error
            "Found non-literal expressions in av operator. Are all array comparisons in 1D?") := by
  constructor
  · intro other
    rw [preprocess_dispatch_eq ctx "="
      [(r1, .arrayValue elems ec), other] c (by simp [is_expression_array]) rfl]
    refine preprocess_array_comparison_of_loop_error _ c ctx _ ?_
    simp [array_cmp_loop, process_array_cmp_operand, h_bad]
  · intro arr_id ic v info h_var h_info h_len
    rw [preprocess_dispatch_eq ctx "="
      [(r1, .identifier arr_id ic), (r2, .arrayValue elems ec)] c
      (by simp [is_expression_array]) rfl]
    refine preprocess_array_comparison_of_loop_error _ c ctx _ ?_
    simp [array_cmp_loop, process_array_cmp_operand, h_var, h_info,
          is_variable_array, JaniVariable.get_array_info, h_len, h_bad]

/-- Witness for C5: comparing array `x` against an array value holding the
computed element `sin(y)` raises the non-literal error, in both operand
orders. -/
theorem C5_witness :
    preprocess_jani_expression
      (.operator "="
        [("left", .arrayValue [.operator "sin" [("exp", .identifier "y" none)] none] none),
         ("right", .identifier "x" none)] none) c2Ctx
      = .error
        "Found non-literal expressions in av operator. Are all array comparisons in 1D?" ∧
    preprocess_jani_expression
      (.operator "="
        [("left", .identifier "x" none),
         ("right", .arrayValue [.operator "sin" [("exp", .identifier "y" none)] none] none)]
        none) c2Ctx
      = .error
        "Found non-literal expressions in av operator. Are all array comparisons in 1D?" :=
  ⟨(C5_non_literal_element_error c2Ctx "left" "right"
      [.operator "sin" [("exp", .identifier "y" none)] none] none none rfl).1
      ("right", .identifier "x" none),
   (C5_non_literal_element_error c2Ctx "left" "right"
      [.operator "sin" [("exp", .identifier "y" none)] none] none none rfl).2
      "x" none ⟨"x", some ⟨1, [5]⟩⟩ ⟨1, [5]⟩ rfl rfl rfl⟩

/-! ## Claim C10: equality between two array-value literals -/

/-- C10: for every equality between two array-value literals (no identifier
operand), normalization raises a fatal error rather than evaluating or
expanding the comparison: the expansion requires an identifier operand naming
an array variable. -/
theorem C10_two_array_literals_error
    (ctx : ContextVars) (r1 r2 : String) (els1 els2 : List JaniExpression)
    (e1c e2c c : Option String) :
    ∃ msg,
      preprocess_jani_expression
        (.operator "=" [(r1, .arrayValue els1 e1c), (r2, .arrayValue els2 e2c)] c) ctx
        = .error msg := by
  rw [preprocess_dispatch_eq ctx "="
    [(r1, .arrayValue els1 e1c), (r2, .arrayValue els2 e2c)] c
    (by simp [is_expression_array]) rfl]
  cases h1 : (els1.all fun e => e.get_expression_type = JaniExpressionType.LITERAL) with
  | false =>
    exact ⟨_, preprocess_array_comparison_of_loop_error _ c ctx
      "Found non-literal expressions in av operator. Are all array comparisons in 1D?"
      (by simp [array_cmp_loop, process_array_cmp_operand, h1])⟩
  | true =>
    cases h2 : (els2.all fun e => e.get_expression_type = JaniExpressionType.LITERAL) with
    | false =>
      exact ⟨_, preprocess_array_comparison_of_loop_error _ c ctx
        "Found non-literal expressions in av operator. Are all array comparisons in 1D?"
        (by simp [array_cmp_loop, process_array_cmp_operand, h1, h2])⟩
    | true =>
      exact ⟨_, preprocess_array_comparison_no_identifier _ c ctx els2 []
        (by simp [array_cmp_loop, process_array_cmp_operand, h1, h2])⟩

/-! ## Claim C6: fixed order of the post-composition passes -/

/-- C6: in every assembly run that returns a model, after all inputs have been
folded the result is exactly randomized-choice expansion (invoked with the
outcome cap 100) applied to self-loop pruning applied to synchronization-edge
synthesis (consuming the final event registry) applied to the folded model —
the three passes in that fixed order and nothing else. -/
theorem C6_post_composition_pass_order {η ε : Type} (ops : AssemblerOps η ε)
    (scxmls : List ScxmlRoot) (max_array_size : Nat)
    (log : List LogEntry) (m : JaniModel)
    (h : convert_multiple_scxmls_to_jani ops scxmls max_array_size = (log, .ok m)) :
    ∃ (folded : JaniModel) (events : η),
      fold_scxml_inputs ops max_array_size assemblerBaseModel
          ops.empty_events_holder [] scxmls
        = (log, .ok (folded, events)) ∧
      m = ops.expand_random_variables
            (ops.remove_empty_self_loops
              (ops.implement_scxml_events_as_jani_syncs events max_array_size folded))
            100 := by
  rw [convert_multiple_scxmls_to_jani] at h
  rcases hf : fold_scxml_inputs ops max_array_size assemblerBaseModel
      ops.empty_events_holder [] scxmls with ⟨log2, res⟩
  rw [hf] at h
  cases res with
  | error e => simp at h
  | ok p =>
    obtain ⟨folded, events⟩ := p
    simp only [Prod.mk.injEq] at h
    obtain ⟨h1, h2⟩ := h
    injection h2 with h2
    exact ⟨folded, events, by rw [h1], h2.symm⟩

/-- Concrete collaborators used to exercise the assembler: translation fails
exactly on inputs named `bad`, and each pass tags the feature list so the pass
order is observable in the result. -/
def sampleAssemblerOps : AssemblerOps Unit String where
  empty_events_holder := ()
  convert_root := fun root _ _ =>
    if root.name = "bad" then .error "boom"
    else .ok (⟨root.name, [], []⟩, ())
  implement_scxml_events_as_jani_syncs := fun _ _ m =>
    { m with features := m.features ++ ["sync"] }
  remove_empty_self_loops := fun m =>
    { m with features := m.features ++ ["prune"] }
  expand_random_variables := fun m n =>
    { m with features := m.features ++ ["expand" ++ toString n] }

/-- Witness for C6: one successful input; the final model shows the three pass
tags in order, with the expansion invoked at cap 100. -/
theorem C6_witness :
    ∃ (folded : JaniModel) (events : Unit),
      fold_scxml_inputs sampleAssemblerOps 5 assemblerBaseModel () [] [⟨"A", "originA", true⟩]
        = ([], .ok (folded, events)) ∧
      (⟨[], ["arrays", "trigonometric-functions", "sync", "prune", "expand100"],
        [⟨"A", [], []⟩], []⟩ : JaniModel)
        = sampleAssemblerOps.expand_random_variables
            (sampleAssemblerOps.remove_empty_self_loops
              (sampleAssemblerOps.implement_scxml_events_as_jani_syncs events 5 folded))
            100 :=
  C6_post_composition_pass_order sampleAssemblerOps [⟨"A", "originA", true⟩] 5 []
    ⟨[], ["arrays", "trigonometric-functions", "sync", "prune", "expand100"],
      [⟨"A", [], []⟩], []⟩ rfl

/-! ## Claim C9: in-order processing and failure reporting -/

theorem fold_scxml_inputs_append {η ε : Type} (ops : AssemblerOps η ε) (max_array_size : Nat) :
    ∀ (l1 : List ScxmlRoot) (m0 : JaniModel) (ev0 : η) (log0 log1 : List LogEntry)
      (m1 : JaniModel) (ev1 : η),
      fold_scxml_inputs ops max_array_size m0 ev0 log0 l1 = (log1, .ok (m1, ev1)) →
      ∀ l2, fold_scxml_inputs ops max_array_size m0 ev0 log0 (l1 ++ l2)
          = fold_scxml_inputs ops max_array_size m1 ev1 log1 l2 := by
  intro l1
  induction l1 with
  | nil =>
    intro m0 ev0 log0 log1 m1 ev1 h l2
    rw [fold_scxml_inputs] at h
    simp only [Prod.mk.injEq] at h
    obtain ⟨h1, h2⟩ := h
    injection h2 with h2
    injection h2 with h2a h2b
    subst h1; subst h2a; subst h2b
    rfl
  | cons x xs ih =>
    intro m0 ev0 log0 log1 m1 ev1 h l2
    rw [List.cons_append, fold_scxml_inputs]
    rw [fold_scxml_inputs] at h
    by_cases hp : x.is_plain_scxml = true
    · simp only [hp, not_true_eq_false, if_false] at h ⊢
      cases hc : ops.convert_root x ev0 max_array_size with
      | error e => rw [hc] at h; simp at h
      | ok p =>
        obtain ⟨aut, ev2⟩ := p
        rw [hc] at h
        have h2 : (match m0.add_jani_automaton aut with
            | Except.error msg => (log0, Except.error (AssemblyError.configuration_error msg))
            | Except.ok model2 => fold_scxml_inputs ops max_array_size model2 ev2 log0 xs)
              = (log1, Except.ok (m1, ev1)) := h
        show (match m0.add_jani_automaton aut with
            | Except.error msg => (log0, Except.error (AssemblyError.configuration_error msg))
            | Except.ok model2 => fold_scxml_inputs ops max_array_size model2 ev2 log0 (xs ++ l2))
              = fold_scxml_inputs ops max_array_size m1 ev1 log1 l2
        cases ha : m0.add_jani_automaton aut with
        | error msg => rw [ha] at h2; simp at h2
        | ok m2 =>
          rw [ha] at h2
          exact ih m2 ev2 log0 log1 m1 ev1 h2 l2
    · rw [if_pos hp] at h
      exact absurd h (by simp)

/-- C9: the assembler processes inputs in order; when translation of an input
fails (earlier inputs having folded successfully), it appends a log entry
naming the failing input's source locator and name, re-raises the translator's
error unchanged, and returns no model — the inputs after the failing one are
never examined. -/
theorem C9_translation_failure_reporting {η ε : Type} (ops : AssemblerOps η ε)
    (max_array_size : Nat) (front rest : List ScxmlRoot) (x : ScxmlRoot)
    (folded : JaniModel) (events : η) (log : List LogEntry) (e : ε)
    (h_front : fold_scxml_inputs ops max_array_size assemblerBaseModel
        ops.empty_events_holder [] front = (log, .ok (folded, events)))
    (h_plain : x.is_plain_scxml = true)
    (h_fail : ops.convert_root x events max_array_size = .error e) :
    convert_multiple_scxmls_to_jani ops (front ++ x :: rest) max_array_size
      = (log ++ [⟨x.get_xml_origin,
            "Error while converting SCXML model " ++ x.get_name ++ "."⟩],
         .error (.translation_failed e)) := by
  rw [convert_multiple_scxmls_to_jani,
      fold_scxml_inputs_append ops max_array_size front assemblerBaseModel
        ops.empty_events_holder [] log folded events h_front (x :: rest),
      fold_scxml_inputs]
  simp only [h_plain, not_true_eq_false, if_false, h_fail]

/-- Witness for C9: the second of three inputs fails; the log names it, the
error payload is the translator's own, no model is produced, and the third
input is never consulted. -/
theorem C9_witness :
    convert_multiple_scxmls_to_jani sampleAssemblerOps
      [⟨"A", "originA", true⟩, ⟨"bad", "originB", true⟩, ⟨"C", "originC", true⟩] 5
      = ([⟨"originB", "Error while converting SCXML model bad."⟩],
         .error (.translation_failed "boom")) :=
  C9_translation_failure_reporting sampleAssemblerOps 5
    [⟨"A", "originA", true⟩] [⟨"C", "originC", true⟩] ⟨"bad", "originB", true⟩
    ⟨[], ["arrays", "trigonometric-functions"], [⟨"A", [], []⟩], []⟩ () [] "boom"
    rfl rfl rfl

/-! ## Claim C7: idempotence of normalization -/

mutual

/-- An expression is in normal form when no operator node visited by the
normalizer has an array-value operand (array-value literals themselves are
leaves for the normalizer, so their elements are unconstrained). -/
def normalizedB : JaniExpression → Bool
  | .literal _ _ => true
  | .identifier _ _ => true
  | .arrayValue _ _ => true
  | .operator _ ops _ => (ops.all fun p => !is_expression_array p.2) && normalizedOpsB ops

def normalizedOpsB : List (String × JaniExpression) → Bool
  | [] => true
  | (_, e) :: rest => normalizedB e && normalizedOpsB rest

end

theorem normalizedB_setComment (e : JaniExpression) (c : Option String) :
    normalizedB (e.setComment c) = normalizedB e := by
  cases e <;> rfl

theorem is_expression_array_setComment (e : JaniExpression) (c : Option String) :
    is_expression_array (e.setComment c) = is_expression_array e := by
  cases e <;> rfl

theorem eq_literal_of_literal_type (e : JaniExpression)
    (h : e.get_expression_type = JaniExpressionType.LITERAL) :
    ∃ v c, e = .literal v c := by
  cases e with
  | literal v c => exact ⟨v, c, rfl⟩
  | identifier n c => simp [JaniExpression.get_expression_type] at h
  | operator op ops c => simp [JaniExpression.get_expression_type] at h
  | arrayValue els c => simp [JaniExpression.get_expression_type] at h


theorem is_expression_array_literal (v : Int) (c : Option String) :
    is_expression_array (.literal v c) = false := rfl

theorem is_expression_array_identifier (n : String) (c : Option String) :
    is_expression_array (.identifier n c) = false := rfl

theorem is_expression_array_operator (op : String) (ops : List (String × JaniExpression))
    (c : Option String) : is_expression_array (.operator op ops c) = false := rfl

theorem normalizedB_specExpansionChain (arr_id : String) :
    ∀ (elems : List JaniExpression) (k : Nat) (seed : JaniExpression),
      normalizedB seed = true → is_expression_array seed = false →
      (∀ e ∈ elems, e.get_expression_type = JaniExpressionType.LITERAL) →
      normalizedB (specExpansionChain arr_id seed k elems) = true ∧
      is_expression_array (specExpansionChain arr_id seed k elems) = false := by
  intro elems
  induction elems with
  | nil =>
    intro k seed h1 h2 _
    exact ⟨h1, h2⟩
  | cons e rest ih =>
    intro k seed h1 h2 hlit
    rw [specExpansionChain]
    obtain ⟨v, c, hv⟩ := eq_literal_of_literal_type e (hlit e (by simp))
    refine ih (k + 1) _ ?_ rfl (fun x hx => hlit x (by simp [hx]))
    subst hv
    simp [normalizedB, normalizedOpsB, and_operator, equal_operator,
          array_access_operator, is_expression_array_literal,
          is_expression_array_identifier, is_expression_array_operator, h1, h2]

theorem process_array_cmp_operand_identifier_elements
    (ctx : ContextVars) (st : ArrayCmpState) (name : String) (ic : Option String)
    (stm : ArrayCmpState)
    (hp : process_array_cmp_operand ctx st (.identifier name ic) = .ok stm) :
    stm.array_elements = st.array_elements ∧
    stm.seen_av_operator = st.seen_av_operator := by
  rw [process_array_cmp_operand] at hp
  split at hp
  · exact Except.noConfusion hp
  · split at hp
    · exact Except.noConfusion hp
    · split at hp
      · exact Except.noConfusion hp
      · rename_i info heq
        replace hp :
            (if (((List.range info.array_dimensions).map
                  (fun d => get_array_length_var_name name (d + 1))).all
                fun len_id => ctxHasKey ctx len_id) = true then
              Except.ok
                { array_elements := st.array_elements, array_var_id := some name,
                  array_length_var_ids :=
                    (List.range info.array_dimensions).map
                      (fun d => get_array_length_var_name name (d + 1)),
                  seen_av_operator := st.seen_av_operator }
            else Except.error "Missing length variables in context.")
              = Except.ok stm := hp
        split at hp
        · injection hp with hp
          subst hp
          exact ⟨rfl, rfl⟩
        · exact Except.noConfusion hp

theorem process_array_cmp_operand_av_elements
    (ctx : ContextVars) (st : ArrayCmpState) (arr_els : List JaniExpression)
    (c : Option String) (stm : ArrayCmpState)
    (hp : process_array_cmp_operand ctx st (.arrayValue arr_els c) = .ok stm) :
    stm.array_elements = some arr_els ∧
    (arr_els.all fun e => e.get_expression_type = JaniExpressionType.LITERAL) = true := by
  rw [process_array_cmp_operand] at hp
  split at hp
  · rename_i hcond
    injection hp with hp
    subst hp
    exact ⟨rfl, hcond⟩
  · exact Except.noConfusion hp

theorem array_cmp_loop_elements_literal (ctx : ContextVars) :
    ∀ (operands : List JaniExpression) (st st2 : ArrayCmpState),
      array_cmp_loop ctx st operands = .ok st2 →
      (∀ els, st.array_elements = some els →
        (els.all fun e => e.get_expression_type = JaniExpressionType.LITERAL) = true) →
      (∀ els, st2.array_elements = some els →
        (els.all fun e => e.get_expression_type = JaniExpressionType.LITERAL) = true) := by
  intro operands
  induction operands with
  | nil =>
    intro st st2 h hinv
    rw [array_cmp_loop] at h
    injection h with h
    subst h
    exact hinv
  | cons operand rest ih =>
    intro st st2 h hinv
    rw [array_cmp_loop] at h
    cases hp : process_array_cmp_operand ctx st operand with
    | error msg => rw [hp] at h; simp at h
    | ok stm =>
      rw [hp] at h
      refine ih stm st2 h ?_
      intro els hels
      cases operand with
      | literal v c =>
        rw [show process_array_cmp_operand ctx st (.literal v c)
            = Except.error "Expected operand with op av." from rfl] at hp
        exact Except.noConfusion hp
      | operator op ops c =>
        rw [show process_array_cmp_operand ctx st (.operator op ops c)
            = Except.error "Expected operand with op av." from rfl] at hp
        exact Except.noConfusion hp
      | identifier name ic =>
        obtain ⟨he, _⟩ := process_array_cmp_operand_identifier_elements ctx st name ic stm hp
        exact hinv els (by rw [← he]; exact hels)
      | arrayValue arr_els c =>
        obtain ⟨he, hlit⟩ := process_array_cmp_operand_av_elements ctx st arr_els c stm hp
        rw [he] at hels
        injection hels with hels
        subst hels
        exact hlit

theorem preprocess_array_comparison_ok_normalized
    (ops : List (String × JaniExpression)) (c : Option String) (ctx : ContextVars)
    (r : JaniExpression)
    (h : preprocess_array_comparison (.operator "=" ops c) ctx = .ok r) :
    normalizedB r = true ∧ is_expression_array r = false := by
  rw [preprocess_array_comparison] at h
  rw [if_neg (by simp)] at h
  cases hl : array_cmp_loop ctx ⟨none, none, [], false⟩ (ops.map Prod.snd) with
  | error msg => rw [hl] at h; exact Except.noConfusion h
  | ok st =>
    rw [hl] at h
    obtain ⟨oels, ovid, lids, seen⟩ := st
    cases seen with
    | false => exact Except.noConfusion h
    | true =>
      cases ovid with
      | none => exact Except.noConfusion h
      | some arr_id =>
        cases oels with
        | none => exact Except.noConfusion h
        | some elems =>
          have hlit :
              (elems.all fun e => e.get_expression_type = JaniExpressionType.LITERAL) = true :=
            array_cmp_loop_elements_literal ctx (ops.map Prod.snd) ⟨none, none, [], false⟩
              ⟨some elems, some arr_id, lids, true⟩ hl
              (by intro els he; cases he) elems rfl
          replace h :
              (if lids.length = 1 then
                Except.ok ((((List.range elems.length).foldl
                  (fun last idx =>
                    and_operator last
                      (equal_operator (elems.getD idx (.literal 0 none))
                        (array_access_operator (.identifier arr_id none)
                          (.literal (Int.ofNat idx) none))))
                  (equal_operator (.identifier (lids.headD "") none)
                    (.literal (Int.ofNat elems.length) none))).setComment c))
              else
                Except.error
                  "Trying to make comparisons across multi-dimensional arrays. Unsupported.")
                = Except.ok r := h
          split at h
          · injection h with h
            subst h
            rw [normalizedB_setComment, is_expression_array_setComment,
                range_fold_eq_specExpansionChain]
            refine normalizedB_specExpansionChain arr_id elems 0 _ ?_ rfl ?_
            · simp [normalizedB, normalizedOpsB, equal_operator,
                    is_expression_array_identifier, is_expression_array_literal]
            · intro e he
              have := List.all_eq_true.mp hlit e he
              simpa using this
          · exact Except.noConfusion h

mutual

theorem preprocess_of_normalized (e : JaniExpression) (ctx : ContextVars)
    (h : normalizedB e = true) : preprocess_jani_expression e ctx = .ok e := by
  match e with
  | .literal v c => rw [preprocess_jani_expression]
  | .identifier n c => rw [preprocess_jani_expression]
  | .arrayValue els c => rw [preprocess_jani_expression]
  | .operator op ops c =>
    rw [normalizedB, Bool.and_eq_true] at h
    obtain ⟨h1, h2⟩ := h
    have hany : (ops.any fun p => is_expression_array p.2) = false := by
      rw [List.any_eq_false]
      intro p hp
      have := List.all_eq_true.mp h1 p hp
      simp at this
      simp [this]
    rw [preprocess_jani_expression, hany, preprocess_ops_of_normalized ops ctx h2]
    rfl

theorem preprocess_ops_of_normalized (ops : List (String × JaniExpression))
    (ctx : ContextVars) (h : normalizedOpsB ops = true) :
    preprocess_jani_operands ops ctx = .ok ops := by
  match ops with
  | [] => rw [preprocess_jani_operands]
  | (n, e) :: rest =>
    rw [normalizedOpsB, Bool.and_eq_true] at h
    obtain ⟨h1, h2⟩ := h
    rw [preprocess_jani_operands, preprocess_of_normalized e ctx h1,
        preprocess_ops_of_normalized rest ctx h2]

end

mutual

theorem preprocess_normalizes (e e2 : JaniExpression) (ctx : ContextVars)
    (h : preprocess_jani_expression e ctx = .ok e2) :
    normalizedB e2 = true ∧ is_expression_array e2 = is_expression_array e := by
  match e with
  | .literal v c =>
    rw [preprocess_jani_expression] at h
    injection h with h
    subst h
    exact ⟨rfl, rfl⟩
  | .identifier n c =>
    rw [preprocess_jani_expression] at h
    injection h with h
    subst h
    exact ⟨rfl, rfl⟩
  | .arrayValue els c =>
    rw [preprocess_jani_expression] at h
    injection h with h
    subst h
    exact ⟨rfl, rfl⟩
  | .operator op ops c =>
    rw [preprocess_jani_expression] at h
    cases hav : (ops.any fun p => is_expression_array p.2) with
    | true =>
      rw [hav] at h
      by_cases hop : op = "="
      · subst hop
        rw [if_pos rfl, if_pos rfl] at h
        obtain ⟨h1, h2⟩ := preprocess_array_comparison_ok_normalized ops c ctx e2 h
        exact ⟨h1, by rw [h2, is_expression_array_operator]⟩
      · rw [if_pos rfl, if_neg hop] at h
        exact Except.noConfusion h
    | false =>
      rw [hav] at h
      replace h :
          (match preprocess_jani_operands ops ctx with
            | Except.error msg => Except.error msg
            | Except.ok new_operands =>
              Except.ok (JaniExpression.operator op new_operands c)) = Except.ok e2 := h
      cases hops : preprocess_jani_operands ops ctx with
      | error msg => rw [hops] at h; exact Except.noConfusion h
      | ok ops2 =>
        rw [hops] at h
        injection h with h
        subst h
        obtain ⟨h1, h2⟩ := preprocess_ops_normalizes ops ops2 ctx hops
        have hall : (ops.all fun p => !is_expression_array p.2) = true := by
          rw [List.all_eq_true]
          intro p hp
          have := List.any_eq_false.mp hav p hp
          simp at this
          simp [this]
        refine ⟨?_, rfl⟩
        rw [normalizedB, Bool.and_eq_true]
        exact ⟨h2 hall, h1⟩

theorem preprocess_ops_normalizes (ops ops2 : List (String × JaniExpression))
    (ctx : ContextVars) (h : preprocess_jani_operands ops ctx = .ok ops2) :
    normalizedOpsB ops2 = true ∧
    ((ops.all fun p => !is_expression_array p.2) = true →
      (ops2.all fun p => !is_expression_array p.2) = true) := by
  match ops with
  | [] =>
    rw [preprocess_jani_operands] at h
    injection h with h
    subst h
    exact ⟨rfl, fun _ => rfl⟩
  | (n, e) :: rest =>
    rw [preprocess_jani_operands] at h
    cases he : preprocess_jani_expression e ctx with
    | error m => rw [he] at h; exact Except.noConfusion h
    | ok e2 =>
      rw [he] at h
      cases hr : preprocess_jani_operands rest ctx with
      | error m => rw [hr] at h; exact Except.noConfusion h
      | ok rest2 =>
        rw [hr] at h
        injection h with h
        subst h
        obtain ⟨a1, a2⟩ := preprocess_normalizes e e2 ctx he
        obtain ⟨b1, b2⟩ := preprocess_ops_normalizes rest rest2 ctx hr
        constructor
        · rw [normalizedOpsB, Bool.and_eq_true]
          exact ⟨a1, b1⟩
        · intro hall
          simp only [List.all_cons, Bool.and_eq_true] at hall ⊢
          obtain ⟨hh, ht⟩ := hall
          refine ⟨?_, b2 ht⟩
          have hf : is_expression_array e = false := by simpa using hh
          have : is_expression_array e2 = false := a2.trans hf
          simpa using this

end

theorem preprocess_jani_expression_idem (e e2 : JaniExpression) (ctx : ContextVars)
    (h : preprocess_jani_expression e ctx = .ok e2) :
    preprocess_jani_expression e2 ctx = .ok e2 :=
  preprocess_of_normalized e2 ctx (preprocess_normalizes e e2 ctx h).1

theorem preprocess_list_idem {α : Type} (f : α → Except String α)
    (hf : ∀ x y, f x = .ok y → f y = .ok y) :
    ∀ (l l2 : List α), preprocess_list f l = .ok l2 → preprocess_list f l2 = .ok l2 := by
  intro l
  induction l with
  | nil =>
    intro l2 h
    rw [preprocess_list] at h
    injection h with h
    subst h
    rfl
  | cons x rest ih =>
    intro l2 h
    rw [preprocess_list] at h
    cases hx : f x with
    | error m => rw [hx] at h; exact Except.noConfusion h
    | ok y =>
      rw [hx] at h
      cases hr : preprocess_list f rest with
      | error m => rw [hr] at h; exact Except.noConfusion h
      | ok ys =>
        rw [hr] at h
        injection h with h
        subst h
        rw [preprocess_list, hf x y hx, ih ys hr]

theorem preprocess_guard_idem (g g2 : Option JaniExpression) (ctx : ContextVars)
    (h : preprocess_guard g ctx = .ok g2) : preprocess_guard g2 ctx = .ok g2 := by
  cases g with
  | none =>
    rw [preprocess_guard] at h
    injection h with h
    subst h
    rfl
  | some e =>
    rw [preprocess_guard] at h
    cases he : preprocess_jani_expression e ctx with
    | error m => rw [he] at h; exact Except.noConfusion h
    | ok e2 =>
      rw [he] at h
      injection h with h
      subst h
      rw [preprocess_guard, preprocess_jani_expression_idem e e2 ctx he]

theorem preprocess_assignment_idem (a a2 : JaniAssignment) (ctx : ContextVars)
    (h : preprocess_assignment a ctx = .ok a2) : preprocess_assignment a2 ctx = .ok a2 := by
  rw [preprocess_assignment] at h
  cases he : preprocess_jani_expression a.get_expression ctx with
  | error m => rw [he] at h; exact Except.noConfusion h
  | ok e2 =>
    rw [he] at h
    injection h with h
    subst h
    rw [preprocess_assignment,
        show (a.set_expression e2).get_expression = e2 from rfl,
        preprocess_jani_expression_idem a.get_expression e2 ctx he]
    rfl

theorem preprocess_destination_idem (d d2 : JaniDestination) (ctx : ContextVars)
    (h : preprocess_destination d ctx = .ok d2) : preprocess_destination d2 ctx = .ok d2 := by
  rw [preprocess_destination] at h
  cases hl : preprocess_list (fun a => preprocess_assignment a ctx) d.assignments with
  | error m => rw [hl] at h; exact Except.noConfusion h
  | ok as2 =>
    rw [hl] at h
    injection h with h
    subst h
    rw [preprocess_destination,
        preprocess_list_idem (fun a => preprocess_assignment a ctx)
          (fun x y hxy => preprocess_assignment_idem x y ctx hxy)
          d.assignments as2 hl]

theorem preprocess_edge_idem (e e2 : JaniEdge) (ctx : ContextVars)
    (h : preprocess_edge e ctx = .ok e2) : preprocess_edge e2 ctx = .ok e2 := by
  rw [preprocess_edge] at h
  cases hg : preprocess_guard e.guard ctx with
  | error m => rw [hg] at h; exact Except.noConfusion h
  | ok g2 =>
    rw [hg] at h
    cases hd : preprocess_list (fun d => preprocess_destination d ctx) e.destinations with
    | error m => rw [hd] at h; exact Except.noConfusion h
    | ok ds2 =>
      rw [hd] at h
      injection h with h
      subst h
      rw [preprocess_edge,
          show ({ e with guard := g2, destinations := ds2 } : JaniEdge).guard = g2 from rfl,
          preprocess_guard_idem e.guard g2 ctx hg,
          show ({ e with guard := g2, destinations := ds2 } : JaniEdge).destinations = ds2
            from rfl,
          preprocess_list_idem (fun d => preprocess_destination d ctx)
            (fun x y hxy => preprocess_destination_idem x y ctx hxy)
            e.destinations ds2 hd]

theorem preprocess_automaton_idem (a a2 : JaniAutomaton) (ctx : ContextVars)
    (h : preprocess_automaton a ctx = .ok a2) :
    a2.local_variables = a.local_variables ∧ preprocess_automaton a2 ctx = .ok a2 := by
  rw [preprocess_automaton] at h
  cases he : preprocess_list (fun e => preprocess_edge e ctx) a.edges with
  | error m => rw [he] at h; exact Except.noConfusion h
  | ok es2 =>
    rw [he] at h
    injection h with h
    subst h
    refine ⟨rfl, ?_⟩
    rw [preprocess_automaton,
        show ({ a with edges := es2 } : JaniAutomaton).edges = es2 from rfl,
        preprocess_list_idem (fun e => preprocess_edge e ctx)
          (fun x y hxy => preprocess_edge_idem x y ctx hxy)
          a.edges es2 he]

theorem preprocess_property_idem (p p2 : JaniProperty) (ctx : ContextVars)
    (h : preprocess_property p ctx = .ok p2) : preprocess_property p2 ctx = .ok p2 := by
  rw [preprocess_property] at h
  cases hl : preprocess_list
      (fun q =>
        match preprocess_jani_expression q.2 ctx with
        | .error msg => .error msg
        | .ok e2 => .ok (q.1, e2))
      p.property_operands with
  | error m => rw [hl] at h; exact Except.noConfusion h
  | ok qs2 =>
    rw [hl] at h
    injection h with h
    subst h
    rw [preprocess_property,
        show ({ p with property_operands := qs2 } : JaniProperty).property_operands = qs2
          from rfl]
    rw [preprocess_list_idem _ ?_ p.property_operands qs2 hl]
    intro x y hxy
    cases hx : preprocess_jani_expression x.2 ctx with
    | error m => rw [hx] at hxy; exact Except.noConfusion hxy
    | ok e2 =>
      rw [hx] at hxy
      injection hxy with hxy
      subst hxy
      show (match preprocess_jani_expression e2 ctx with
        | Except.error msg => Except.error msg
        | Except.ok e3 => Except.ok (x.1, e3)) = Except.ok (x.1, e2)
      rw [preprocess_jani_expression_idem x.2 e2 ctx hx]

/-- C7: normalization is idempotent — re-running the normalizer on the Model
produced by a successful normalization run returns that Model unchanged, so
every guard, assignment and property expression tree stays identical. -/
theorem C7_normalization_idempotent (m m2 : JaniModel)
    (h : preprocess_jani_expressions m = .ok m2) :
    preprocess_jani_expressions m2 = .ok m2 := by
  rw [preprocess_jani_expressions] at h
  cases ha : preprocess_list
      (fun a => preprocess_automaton a (dict_union m.global_variables a.local_variables))
      m.automata with
  | error msg => rw [ha] at h; exact Except.noConfusion h
  | ok autos =>
    rw [ha] at h
    cases hp : preprocess_list (fun p => preprocess_property p m.global_variables)
        m.properties with
    | error msg => rw [hp] at h; exact Except.noConfusion h
    | ok props =>
      rw [hp] at h
      injection h with h
      subst h
      have hf : ∀ x y,
          preprocess_automaton x (dict_union m.global_variables x.local_variables) = .ok y →
          preprocess_automaton y (dict_union m.global_variables y.local_variables) = .ok y := by
        intro x y hxy
        obtain ⟨hlv, hid⟩ := preprocess_automaton_idem x y
          (dict_union m.global_variables x.local_variables) hxy
        rw [hlv]
        exact hid
      have h1 := preprocess_list_idem
        (fun a => preprocess_automaton a (dict_union m.global_variables a.local_variables))
        hf m.automata autos ha
      have h2 := preprocess_list_idem
        (fun p => preprocess_property p m.global_variables)
        (fun x y hxy => preprocess_property_idem x y m.global_variables hxy)
        m.properties props hp
      rw [preprocess_jani_expressions]
      rw [show ({ m with automata := autos, properties := props } : JaniModel).global_variables
            = m.global_variables from rfl,
          show ({ m with automata := autos, properties := props } : JaniModel).automata
            = autos from rfl,
          show ({ m with automata := autos, properties := props } : JaniModel).properties
            = props from rfl,
          h1, h2]

/-- A small concrete model: one automaton with a local array variable, an
array-equality guard, an assignment referencing a global, and one property. -/
def c7Model : JaniModel :=
  { global_variables := [("g", ⟨"g", none⟩)],
    features := ["arrays"],
    automata := [
      { name := "A",
        local_variables := [("arr", ⟨"arr", some ⟨1, [5]⟩⟩),
                            ("arr_length_1", ⟨"arr_length_1", none⟩)],
        edges := [
          { action := some "act",
            guard := some (.operator "="
              [("left", .identifier "arr" none),
               ("right", .arrayValue [.literal 1 none] none)] none),
            destinations := [
              { location := "loc1", probability := none,
                assignments := [⟨.identifier "g" none,
                  .operator "+"
                    [("left", .identifier "g" none),
                     ("right", .literal 1 none)] none⟩] }] }] }],
    properties := [⟨"p1", [("exp", .identifier "g" none)]⟩] }

/-- The normalized form of `c7Model`: the guard is expanded into the
length-and-elements conjunction; everything else is unchanged. -/
def c7Normalized : JaniModel :=
  { global_variables := [("g", ⟨"g", none⟩)],
    features := ["arrays"],
    automata := [
      { name := "A",
        local_variables := [("arr", ⟨"arr", some ⟨1, [5]⟩⟩),
                            ("arr_length_1", ⟨"arr_length_1", none⟩)],
        edges := [
          { action := some "act",
            guard := some (.operator "∧"
              [("left", .operator "="
                  [("left", .identifier "arr_length_1" none),
                   ("right", .literal 1 none)] none),
               ("right", .operator "="
                  [("left", .literal 1 none),
                   ("right", .operator "aa"
                      [("exp", .identifier "arr" none),
                       ("index", .literal 0 none)] none)] none)] none),
            destinations := [
              { location := "loc1", probability := none,
                assignments := [⟨.identifier "g" none,
                  .operator "+"
                    [("left", .identifier "g" none),
                     ("right", .literal 1 none)] none⟩] }] }] }],
    properties := [⟨"p1", [("exp", .identifier "g" none)]⟩] }

example : preprocess_jani_expressions c7Model = .ok c7Normalized := rfl

/-- Witness for C7: re-normalizing the normalized form of `c7Model` is a
no-op. -/
theorem C7_witness : preprocess_jani_expressions c7Normalized = .ok c7Normalized :=
  C7_normalization_idempotent c7Model c7Normalized rfl

/-! ## Claim C8: identifier-resolution contexts -/

theorem ctxGet_dict_union (g l : ContextVars) (n : String) :
    ctxGet (dict_union g l) n
      = match ctxGet l n with
        | some v => some v
        | none => ctxGet g n := by
  rw [dict_union]
  induction l with
  | nil => simp [ctxGet]
  | cons kv rest ih =>
    obtain ⟨k, v⟩ := kv
    rw [List.cons_append, ctxGet]
    by_cases hk : k = n
    · rw [if_pos hk]
      rw [show ctxGet ((k, v) :: rest) n = if k = n then some v else ctxGet rest n from rfl,
          if_pos hk]
    · rw [if_neg hk, ih]
      rw [show ctxGet ((k, v) :: rest) n = if k = n then some v else ctxGet rest n from rfl,
          if_neg hk]

/-- C8: normalization resolves identifiers in an automaton's edge expressions
against the union of the model's global variables and that automaton's local
variables (locals winning on duplicate names, as in the Python dict union),
while property expressions are resolved against the global variables only. -/
theorem C8_resolution_contexts (m m2 : JaniModel)
    (h : preprocess_jani_expressions m = .ok m2) :
    preprocess_list
        (fun a => preprocess_automaton a (dict_union m.global_variables a.local_variables))
        m.automata = .ok m2.automata ∧
    preprocess_list (fun p => preprocess_property p m.global_variables) m.properties
        = .ok m2.properties ∧
    (∀ (g l : ContextVars) (n : String),
      ctxGet (dict_union g l) n
        = match ctxGet l n with
          | some v => some v
          | none => ctxGet g n) := by
  rw [preprocess_jani_expressions] at h
  cases ha : preprocess_list
      (fun a => preprocess_automaton a (dict_union m.global_variables a.local_variables))
      m.automata with
  | error msg => rw [ha] at h; exact Except.noConfusion h
  | ok autos =>
    rw [ha] at h
    cases hp : preprocess_list (fun p => preprocess_property p m.global_variables)
        m.properties with
    | error msg => rw [hp] at h; exact Except.noConfusion h
    | ok props =>
      rw [hp] at h
      injection h with h
      subst h
      exact ⟨rfl, rfl, fun g l n => ctxGet_dict_union g l n⟩

/-- Witness for C8 on `c7Model`: its automaton's edges resolve against the
union of globals and locals (so the locally declared array resolves and the
guard expands), its properties resolve against globals only, and the very
guard expression that succeeded in the edge context is a fatal error when it
appears as a property operand, because the local array is invisible there. -/
theorem C8_witness :
    preprocess_list
        (fun a => preprocess_automaton a (dict_union c7Model.global_variables a.local_variables))
        c7Model.automata = .ok c7Normalized.automata ∧
    preprocess_list (fun p => preprocess_property p c7Model.global_variables)
        c7Model.properties = .ok c7Normalized.properties ∧
    preprocess_property
        ⟨"pbad", [("exp", .operator "="
          [("left", .identifier "arr" none),
           ("right", .arrayValue [.literal 1 none] none)] none)]⟩
        c7Model.global_variables
      = .error "Cannot find the array variable in context vars." :=
  ⟨(C8_resolution_contexts c7Model c7Normalized rfl).1,
   (C8_resolution_contexts c7Model c7Normalized rfl).2.1,
   rfl⟩
